import Mathlib

/-!
Verification of s3gopher.

A shallow embedding of `s3gopher.go`, a wrapper around an S3 client with five
entry points (`New`, `Test`, `List`, `Get`, `Put`), followed by theorems about
them.

Modelling decisions:

* The S3 service behind `s.Client` is a `Service σ`: four handlers that take a
  request and the remote state `σ` and give back the response, the error (or
  `none` for Go's `nil`) and the next remote state.
* Every operation returns a `Run`: its Go return value, the remote state
  afterwards, the client calls it made in order (`Call` records the request
  together with what came back) and the lines it printed to standard output.
* The `for` loop of `List` has no bound in the source, so the model takes a
  fuel argument; running out of fuel is the result `none`.
* The SDK hands out pointers for the response fields (`*string`, `*bool`,
  `*time.Time`); the source dereferences them unconditionally, and the model
  takes responses in which those fields are set.
* `sort.Sort` belongs to Go's standard library, not to this repository; it is
  modelled by an insertion sort driven by the `Less` method of the source.
-/

set_option linter.dupNamespace false

namespace S3Gopher

/-! ## Data model -/

/-- Go's `time.Time`, as an instant counted in nanoseconds. -/
abbrev Time := Int

/-- Go's `[]byte`. -/
abbrev Bytes := List UInt8

/-- `t.After(u)` of Go's `time` package: `t` is strictly later than `u`. -/
def Time.After (t u : Time) : Bool := decide (u < t)

/-- Go's `error` values, by the interfaces the source asks for: a plain error
(such as `errors.New` builds), an error satisfying `awserr.Error`, and one
satisfying `awserr.RequestFailure` (which includes `awserr.Error`). Every
variant carries `text`, what its `Error()` method returns. -/
inductive Error where
  | errorString (text : String)
  | awsError (text code message : String) (origErr : Option Error)
  | requestFailure (text code message : String) (origErr : Option Error)
      (statusCode : Int) (requestID : String)

/-- The `Error()` method. -/
def Error.Error : Error → String
  | .errorString text => text
  | .awsError text _ _ _ => text
  | .requestFailure text _ _ _ _ _ => text

/-- `errors.New`. -/
def errorsNew (text : String) : Error := .errorString text

/-- The verb `%s` of `fmt.Sprintf` applied to an `error` value: the text of a
non-nil error, and the marker fmt prints for a nil interface. -/
def fmtErrorS : Option Error → String
  | some e => e.Error
  | none => "%!s(<nil>)"

/-- The verb `%d` of `fmt.Sprintf` applied to an `int`. -/
def fmtD (n : Int) : String := toString n

/-- Credentials represents a pair of AWS credentials. -/
structure Credentials where
  AccessKey : String
  SecretAccessKey : String
deriving DecidableEq, Repr

/-- The value `credentials.NewStaticCredentials` builds. -/
structure StaticCredentials where
  AccessKeyID : String
  SecretAccessKey : String
  SessionToken : String
deriving DecidableEq, Repr

/-- The fields of `aws.Config` the source sets. -/
structure AwsConfig where
  Region : String
  Credentials : StaticCredentials
deriving DecidableEq, Repr

/-- The client value `s3.New` builds from a configuration. -/
structure S3 where
  Config : AwsConfig
deriving DecidableEq, Repr

/-- Bucket handler for a S3 bucket. -/
structure Bucket where
  Client : S3
  Bucket : String
  ACL : String
  Creds : Credentials
deriving DecidableEq, Repr

/-- Object in a S3 bucket. -/
structure Object where
  Key : String
  LastModified : Time
  Data : Bytes
deriving DecidableEq, Repr

/-! ## Requests and responses of the client -/

structure HeadBucketInput where
  Bucket : String
deriving DecidableEq, Repr

structure ListObjectsInput where
  Bucket : String
  MaxKeys : Int
  Marker : String
deriving DecidableEq, Repr

/-- An entry of a listing page (`s3.Object`), with the fields the source reads. -/
structure S3Object where
  Key : String
  LastModified : Time
deriving DecidableEq, Repr

structure ListObjectsOutput where
  Contents : List S3Object
  IsTruncated : Bool
deriving DecidableEq, Repr

structure GetObjectInput where
  Bucket : String
  Key : String
  ResponseExpires : Time
deriving DecidableEq, Repr

/-- A response body (`io.ReadCloser`): the bytes a reader gets out of it, and
the error that ends the reading, `none` when it ends at end of file. -/
structure ReadCloser where
  data : Bytes
  err : Option Error

/-- `ioutil.ReadAll`: the bytes read and the error met, if any. -/
def ioutilReadAll (r : ReadCloser) : Bytes × Option Error := (r.data, r.err)

structure GetObjectOutput where
  Body : ReadCloser
  LastModified : Time

structure PutObjectInput where
  Bucket : String
  Key : String
  ACL : String
  Body : Bytes
  ContentType : String
deriving DecidableEq, Repr

/-- The remote service reached through `s.Client`. -/
structure Service (σ : Type) where
  HeadBucket : HeadBucketInput → σ → Option Error × σ
  ListObjects : ListObjectsInput → σ → (ListObjectsOutput × Option Error) × σ
  GetObject : GetObjectInput → σ → (GetObjectOutput × Option Error) × σ
  PutObject : PutObjectInput → σ → Option Error × σ

/-- One call on the client: the request sent and what came back. -/
inductive Call where
  | headBucket (params : HeadBucketInput) (err : Option Error)
  | listObjects (params : ListObjectsInput) (resp : ListObjectsOutput) (err : Option Error)
  | getObject (params : GetObjectInput) (resp : GetObjectOutput) (err : Option Error)
  | putObject (params : PutObjectInput) (err : Option Error)

/-- What running an operation leaves behind. -/
structure Run (σ α : Type) where
  result : α
  remote : σ
  calls : List Call
  stdout : List String

/-! ## Sorting -/

/-- `ByLastModified.Less`, on the two elements the indices select: sort is
descending by time. -/
def ByLastModified.Less (a b : Object) : Bool := Time.After a.LastModified b.LastModified

/-- Puts `x` in front of the first element it is `less` than. -/
def orderedInsert {α : Type} (less : α → α → Bool) (x : α) : List α → List α
  | [] => [x]
  | y :: ys => if less x y then x :: y :: ys else y :: orderedInsert less x ys

/-- `sort.Sort`, modelled as an insertion sort under `less`. -/
def sortSort {α : Type} (less : α → α → Bool) : List α → List α
  | [] => []
  | x :: xs => orderedInsert less x (sortSort less xs)

/-! ## The operations -/

/-- New creates a new connection to a S3 bucket using the provided credentials.
Both SDK constructors only build values. -/
def New {σ : Type} (bucket accessKey secretAccessKey : String) (st : σ) :
    Run σ (Option Bucket × Option Error) :=
  let creds : StaticCredentials :=
    { AccessKeyID := accessKey, SecretAccessKey := secretAccessKey, SessionToken := "" }
  let newS3 : S3 := { Config := { Region := "eu-west-1", Credentials := creds } }
  { result := (some { Client := newS3, Bucket := bucket, ACL := "private",
                      Creds := { AccessKey := "", SecretAccessKey := "" } }, none),
    remote := st, calls := [], stdout := [] }

/-- Test tests the connection to the bucket using the provided credentials. -/
def Bucket.Test {σ : Type} (s : S3Gopher.Bucket) (svc : Service σ) (st : σ) : Run σ (Option Error) :=
  let params : HeadBucketInput := { Bucket := s.Bucket }
  let r := svc.HeadBucket params st
  let err := r.1
  match err with
  | some e => { result := some e, remote := r.2, calls := [.headBucket params err], stdout := [] }
  | none => { result := none, remote := r.2, calls := [.headBucket params err], stdout := [] }

/-- The inner `for` loop of `List`: every entry of the page becomes the
current key and is appended to `obj`. -/
def appendContents : List S3Object → String → List Object → String × List Object
  | [], currentKey, obj => (currentKey, obj)
  | c :: rest, _, obj =>
      appendContents rest c.Key (obj ++ [{ Key := c.Key, LastModified := c.LastModified, Data := [] }])

/-- How the outer `for` loop of `List` is left. -/
inductive LoopExit where
  | outOfFuel
  | returned (obj : List Object) (err : Option Error)
  | broke (obj : List Object)

/-- The outer `for` loop of `List`, from the state `(currentKey, obj)`. -/
def ListLoop {σ : Type} (s : Bucket) (svc : Service σ) :
    Nat → String → List Object → σ → List Call → List String → Run σ LoopExit
  | 0, _, _, st, calls, out =>
      { result := .outOfFuel, remote := st, calls := calls, stdout := out }
  | fuel + 1, currentKey, obj, st, calls, out =>
      let params : ListObjectsInput := { Bucket := s.Bucket, MaxKeys := 1000, Marker := currentKey }
      let r := svc.ListObjects params st
      let resp := r.1.1
      let err := r.1.2
      let calls := calls ++ [.listObjects params resp err]
      let acc := appendContents resp.Contents currentKey obj
      match err with
      | some e =>
          { result := .returned [] (some e), remote := r.2, calls := calls,
            stdout := out ++ [e.Error] }
      | none =>
          if !resp.IsTruncated then
            { result := .broke acc.2, remote := r.2, calls := calls, stdout := out }
          else
            ListLoop s svc fuel acc.1 acc.2 r.2 calls out

/-- List all objects in a bucket. The result is `none` when the loop is still
running after `fuel` page requests. -/
def Bucket.List {σ : Type} (s : S3Gopher.Bucket) (svc : Service σ) (fuel : Nat) (st : σ) :
    Run σ (Option (List Object × Option Error)) :=
  let r := ListLoop s svc fuel "" [] st [] []
  match r.result with
  | .outOfFuel => { result := none, remote := r.remote, calls := r.calls, stdout := r.stdout }
  | .returned obj err =>
      { result := some (obj, err), remote := r.remote, calls := r.calls, stdout := r.stdout }
  | .broke obj =>
      { result := some (sortSort ByLastModified.Less obj, none), remote := r.remote,
        calls := r.calls, stdout := r.stdout }

/-- Get data of an S3 object; `now` is the reading of `time.Now()`. -/
def Bucket.Get {σ : Type} (s : S3Gopher.Bucket) (svc : Service σ) (key : String) (now : Time) (st : σ) :
    Run σ (Option Object × Option Error) :=
  let params : GetObjectInput :=
    { Bucket := s.Bucket, Key := "/" ++ key, ResponseExpires := now }
  let r := svc.GetObject params st
  let resp := r.1.1
  let err := r.1.2
  let calls := [Call.getObject params resp err]
  match err with
  | some (.requestFailure _ _ message _ statusCode requestID) =>
      let errMsg := message ++ " " ++ fmtD statusCode ++ " " ++ requestID
      { result := (none, some (errorsNew errMsg)), remote := r.2, calls := calls, stdout := [] }
  | some (.awsError _ code message origErr) =>
      let errMsg := code ++ " " ++ message ++ " " ++ fmtErrorS origErr
      { result := (none, some (errorsNew errMsg)), remote := r.2, calls := calls, stdout := [] }
  | some (.errorString text) =>
      { result := (none, some (errorsNew text)), remote := r.2, calls := calls, stdout := [] }
  | none =>
      let rd := ioutilReadAll resp.Body
      match rd.2 with
      | some e => { result := (none, some e), remote := r.2, calls := calls, stdout := [] }
      | none =>
          { result := (some { Key := key, LastModified := resp.LastModified, Data := rd.1 }, none),
            remote := r.2, calls := calls, stdout := [] }

/-- Put stores an object into an S3 bucket. -/
def Bucket.Put {σ : Type} (s : S3Gopher.Bucket) (svc : Service σ) (o : Object) (st : σ) :
    Run σ (Option Error) :=
  let params : PutObjectInput :=
    { Bucket := s.Bucket, Key := "/" ++ o.Key, ACL := s.ACL, Body := o.Data,
      ContentType := "application/json" }
  let r := svc.PutObject params st
  let err := r.1
  let calls := [Call.putObject params err]
  match err with
  | some (.requestFailure _ _ message _ statusCode requestID) =>
      let errMsg := message ++ " " ++ fmtD statusCode ++ " " ++ requestID
      { result := some (errorsNew errMsg), remote := r.2, calls := calls, stdout := [] }
  | some (.awsError _ code message origErr) =>
      let errMsg := code ++ " " ++ message ++ " " ++ fmtErrorS origErr
      { result := some (errorsNew errMsg), remote := r.2, calls := calls, stdout := [] }
  | some (.errorString text) =>
      { result := some (errorsNew text), remote := r.2, calls := calls, stdout := [] }
  | none => { result := none, remote := r.2, calls := calls, stdout := [] }

/-! ## Remotes used to state and to instantiate the theorems -/

/-- The order of keys: byte-wise lexicographic in Go, which on UTF-8 text is
the lexicographic order of the code points. -/
def keyLess (a b : String) : Bool := decide (a.data < b.data)

/-- What a marker-based listing answers to `(marker, maxKeys)` over the entries
`objs`: the first `maxKeys` entries, in key order, whose key is greater than
the marker, and the truncation flag set exactly when more entries remain. -/
def markerPage (objs : List S3Object) (p : ListObjectsInput) : ListObjectsOutput :=
  let rest := (sortSort (fun a b : S3Object => keyLess a.Key b.Key) objs).filter
    (fun o => keyLess p.Marker o.Key)
  { Contents := rest.take p.MaxKeys.toNat, IsTruncated := decide (p.MaxKeys.toNat < rest.length) }

/-- An object as an in-memory store keeps it. -/
structure Stored where
  Bucket : String
  Key : String
  LastModified : Time
  Body : Bytes
deriving DecidableEq, Repr

/-- The listing entry of a stored object. -/
def Stored.entry (o : Stored) : S3Object := { Key := o.Key, LastModified := o.LastModified }

/-- The error an in-memory store answers when the bucket or key is unknown. -/
def notFound : Error :=
  .requestFailure "NotFound: Not Found\n\tstatus code: 404, request id: R1" "NotFound"
    "Not Found" none 404 "R1"

/-- An in-memory S3: head-bucket succeeds when the bucket holds an object,
list-objects pages through the bucket by marker, get-object returns the body
stored under the bucket and key, put-object stores the body sent. -/
def memS3 : Service (List Stored) where
  HeadBucket p st := (if st.any (fun o => o.Bucket == p.Bucket) then none else some notFound, st)
  ListObjects p st :=
    ((markerPage ((st.filter (fun o => o.Bucket == p.Bucket)).map Stored.entry) p, none), st)
  GetObject p st :=
    match st.find? (fun o => o.Bucket == p.Bucket && o.Key == p.Key) with
    | some o => (({ Body := { data := o.Body, err := none }, LastModified := o.LastModified }, none), st)
    | none => (({ Body := { data := [], err := none }, LastModified := 0 }, some notFound), st)
  PutObject p st :=
    (none, { Bucket := p.Bucket, Key := p.Key, LastModified := st.length, Body := p.Body } ::
      st.filter (fun o => !(o.Bucket == p.Bucket && o.Key == p.Key)))

/-- A remote that plays back a fixed sequence of list-objects responses, one
per request, whatever the request; its other calls fail. -/
def scripted : Service (List (ListObjectsOutput × Option Error)) where
  HeadBucket _ st := (some (.errorString "not scripted"), st)
  ListObjects _ st :=
    match st with
    | r :: rest => (r, rest)
    | [] => (({ Contents := [], IsTruncated := false }, some (.errorString "script exhausted")), [])
  GetObject _ st :=
    (({ Body := { data := [], err := none }, LastModified := 0 }, some (.errorString "not scripted")), st)
  PutObject _ st := (some (.errorString "not scripted"), st)

/-- A remote whose every call fails with the same error. -/
def failing (e : Error) : Service Unit where
  HeadBucket _ st := (some e, st)
  ListObjects _ st := (({ Contents := [], IsTruncated := false }, some e), st)
  GetObject _ st := (({ Body := { data := [], err := none }, LastModified := 0 }, some e), st)
  PutObject _ st := (some e, st)

/-- The body an in-memory store holds under a bucket and key. -/
def memStored (st : List Stored) (bucket key : String) : Option Bytes :=
  (st.find? (fun o => o.Bucket == bucket && o.Key == key)).map Stored.Body

/-- A handle as `New` builds it. -/
def handle (bucket : String) : Bucket :=
  let creds : StaticCredentials := { AccessKeyID := "AK", SecretAccessKey := "SK", SessionToken := "" }
  { Client := { Config := { Region := "eu-west-1", Credentials := creds } },
    Bucket := bucket, ACL := "private", Creds := { AccessKey := "", SecretAccessKey := "" } }

/-- A service error as the SDK builds it for an unknown key when there is no
request-failure detail: its text is "code: message". -/
def noSuchKey : Error :=
  .awsError "NoSuchKey: The specified key does not exist." "NoSuchKey"
    "The specified key does not exist." none

/-- The `Object` that `List` appends for an entry of a page: key and
last-modified time, no data. -/
def S3Object.toObject (c : S3Object) : Object :=
  { Key := c.Key, LastModified := c.LastModified, Data := [] }

/-- The marker of the request that follows a page: the key of the last entry
of the page, and the marker already sent when the page has no entries. -/
def nextMarker (marker : String) (contents : List S3Object) : String :=
  match contents.getLast? with
  | some c => c.Key
  | none => marker

/-- The entries of a sequence of pages, in the order received. -/
def allEntries : List ListObjectsOutput → List Object
  | [] => []
  | p :: ps => p.Contents.map S3Object.toObject ++ allEntries ps

/-- The calls of a run of `List` follow the pagination protocol from `marker`
on: every call is a list-objects call for `bucket` with a page limit of 1000,
the first carries `marker`, each later one carries the marker that follows the
page before it, and a call is followed by another only when it succeeded with a
truncated page. -/
def MarkerChain (bucket : String) : String → List Call → Prop
  | _, [] => True
  | marker, .listObjects params resp err :: rest =>
      params = { Bucket := bucket, MaxKeys := 1000, Marker := marker } ∧
      (rest ≠ [] → err = none ∧ resp.IsTruncated = true) ∧
      MarkerChain bucket (nextMarker marker resp.Contents) rest
  | _, _ :: _ => False

/-- The last call stopped the loop: it failed, or its page is not truncated. -/
def Call.stops : Call → Prop
  | .listObjects _ resp err => err ≠ none ∨ resp.IsTruncated = false
  | _ => False

/-- Entries in strictly increasing key order. -/
def KeyOrdered (l : List S3Object) : Prop := l.Pairwise (fun a b => a.Key < b.Key)

/-! ## Theorems -/

/-- C8. `New` returns a nil error and a handle whose `Bucket` is the given name
and whose `ACL` is "private", for every bucket name and credential pair; it
makes no call on the remote and leaves it as it was. -/
theorem New_returns_private_handle {σ : Type} (bucket accessKey secretAccessKey : String) (st : σ) :
    ∃ h : Bucket, (New bucket accessKey secretAccessKey st).result = (some h, none) ∧
      h.Bucket = bucket ∧ h.ACL = "private" ∧
      (New bucket accessKey secretAccessKey st).calls = [] ∧
      (New bucket accessKey secretAccessKey st).remote = st :=
  ⟨_, rfl, rfl, rfl, rfl, rfl⟩

/-- C9. `Test` makes exactly one head-bucket call, for the bucket of the handle,
and returns exactly the error of that call: nil when it succeeds, the remote
error itself when it fails. -/
theorem Test_returns_remote_error {σ : Type} (s : Bucket) (svc : Service σ) (st : σ) :
    (s.Test svc st).calls =
        [Call.headBucket { Bucket := s.Bucket } (svc.HeadBucket { Bucket := s.Bucket } st).1] ∧
      (s.Test svc st).result = (svc.HeadBucket { Bucket := s.Bucket } st).1 ∧
      ((s.Test svc st).result ≠ none ↔ (svc.HeadBucket { Bucket := s.Bucket } st).1 ≠ none) := by
  have h : (s.Test svc st).result = (svc.HeadBucket { Bucket := s.Bucket } st).1 := by
    unfold Bucket.Test
    cases hr : (svc.HeadBucket { Bucket := s.Bucket } st).1 <;> simp [hr]
  refine ⟨?_, h, by rw [h]⟩
  unfold Bucket.Test
  cases hr : (svc.HeadBucket { Bucket := s.Bucket } st).1 <;> simp [hr]

/-! ### `Get` and `Put` -/

theorem Put_calls {σ : Type} (s : Bucket) (svc : Service σ) (o : Object) (st : σ) :
    (s.Put svc o st).calls =
      [Call.putObject
        { Bucket := s.Bucket, Key := "/" ++ o.Key, ACL := s.ACL, Body := o.Data,
          ContentType := "application/json" }
        (svc.PutObject
          { Bucket := s.Bucket, Key := "/" ++ o.Key, ACL := s.ACL, Body := o.Data,
            ContentType := "application/json" } st).1] := by
  cases h : (svc.PutObject
      { Bucket := s.Bucket, Key := "/" ++ o.Key, ACL := s.ACL, Body := o.Data,
        ContentType := "application/json" } st).1 with
  | none => simp [Bucket.Put, h]
  | some e => cases e <;> simp [Bucket.Put, h]

theorem Put_result_none_iff {σ : Type} (s : Bucket) (svc : Service σ) (o : Object) (st : σ) :
    (s.Put svc o st).result = none ↔
      (svc.PutObject
        { Bucket := s.Bucket, Key := "/" ++ o.Key, ACL := s.ACL, Body := o.Data,
          ContentType := "application/json" } st).1 = none := by
  cases h : (svc.PutObject
      { Bucket := s.Bucket, Key := "/" ++ o.Key, ACL := s.ACL, Body := o.Data,
        ContentType := "application/json" } st).1 with
  | none => simp [Bucket.Put, h]
  | some e => cases e <;> simp [Bucket.Put, h]

/-- The remote state `Put` leaves is the one its put-object call leaves. -/
theorem Put_remote {σ : Type} (s : Bucket) (svc : Service σ) (o : Object) (st : σ) :
    (s.Put svc o st).remote =
      (svc.PutObject
        { Bucket := s.Bucket, Key := "/" ++ o.Key, ACL := s.ACL, Body := o.Data,
          ContentType := "application/json" } st).2 := by
  cases h : (svc.PutObject
      { Bucket := s.Bucket, Key := "/" ++ o.Key, ACL := s.ACL, Body := o.Data,
        ContentType := "application/json" } st).1 with
  | none => simp [Bucket.Put, h]
  | some e => cases e <;> simp [Bucket.Put, h]

theorem Get_calls {σ : Type} (s : Bucket) (svc : Service σ) (key : String) (now : Time) (st : σ) :
    (s.Get svc key now st).calls =
      [Call.getObject { Bucket := s.Bucket, Key := "/" ++ key, ResponseExpires := now }
        (svc.GetObject { Bucket := s.Bucket, Key := "/" ++ key, ResponseExpires := now } st).1.1
        (svc.GetObject { Bucket := s.Bucket, Key := "/" ++ key, ResponseExpires := now } st).1.2] := by
  cases h : (svc.GetObject { Bucket := s.Bucket, Key := "/" ++ key, ResponseExpires := now }
      st).1.2 with
  | some e => cases e <;> simp [Bucket.Get, h]
  | none =>
    cases hb : (svc.GetObject { Bucket := s.Bucket, Key := "/" ++ key, ResponseExpires := now }
        st).1.1.Body.err with
    | some e => simp [Bucket.Get, h, hb, ioutilReadAll]
    | none => simp [Bucket.Get, h, hb, ioutilReadAll]

theorem Get_result_of_success {σ : Type} (s : Bucket) (svc : Service σ) (key : String)
    (now : Time) (st : σ)
    (h : (svc.GetObject { Bucket := s.Bucket, Key := "/" ++ key, ResponseExpires := now } st).1.2
      = none)
    (hb : (svc.GetObject { Bucket := s.Bucket, Key := "/" ++ key, ResponseExpires := now }
      st).1.1.Body.err = none) :
    (s.Get svc key now st).result =
      (some { Key := key,
              LastModified :=
                (svc.GetObject { Bucket := s.Bucket, Key := "/" ++ key, ResponseExpires := now }
                  st).1.1.LastModified,
              Data :=
                (svc.GetObject { Bucket := s.Bucket, Key := "/" ++ key, ResponseExpires := now }
                  st).1.1.Body.data }, none) := by
  simp [Bucket.Get, h, hb, ioutilReadAll]

/-- C6. `Put` makes exactly one put-object call: its bucket is the bucket of the
handle, its key is "/" followed by the key of the object, its access control
is the `ACL` of the handle, its body is the data of the object and its content
type is "application/json"; `Put` returns nil exactly when that call does. -/
theorem Put_sends_one_request {σ : Type} (s : Bucket) (svc : Service σ) (o : Object) (st : σ) :
    (s.Put svc o st).calls =
        [Call.putObject
          { Bucket := s.Bucket, Key := "/" ++ o.Key, ACL := s.ACL, Body := o.Data,
            ContentType := "application/json" }
          (svc.PutObject
            { Bucket := s.Bucket, Key := "/" ++ o.Key, ACL := s.ACL, Body := o.Data,
              ContentType := "application/json" } st).1] ∧
      ((s.Put svc o st).result = none ↔
        (svc.PutObject
          { Bucket := s.Bucket, Key := "/" ++ o.Key, ACL := s.ACL, Body := o.Data,
            ContentType := "application/json" } st).1 = none) :=
  ⟨Put_calls s svc o st, Put_result_none_iff s svc o st⟩

/-- C5. `Get` makes exactly one get-object call, whose bucket is the bucket of
the handle and whose key is "/" followed by the key asked for; when the call
and the reading of its body succeed, the object returned has the key asked
for (without the "/"), the last-modified time of the response and the whole
body as data. -/
theorem Get_sends_one_request {σ : Type} (s : Bucket) (svc : Service σ) (key : String)
    (now : Time) (st : σ) :
    (s.Get svc key now st).calls =
        [Call.getObject { Bucket := s.Bucket, Key := "/" ++ key, ResponseExpires := now }
          (svc.GetObject { Bucket := s.Bucket, Key := "/" ++ key, ResponseExpires := now } st).1.1
          (svc.GetObject { Bucket := s.Bucket, Key := "/" ++ key, ResponseExpires := now } st).1.2] ∧
      ((svc.GetObject { Bucket := s.Bucket, Key := "/" ++ key, ResponseExpires := now } st).1.2 = none →
        (svc.GetObject { Bucket := s.Bucket, Key := "/" ++ key, ResponseExpires := now } st).1.1.Body.err
          = none →
        (s.Get svc key now st).result =
          (some { Key := key,
                  LastModified :=
                    (svc.GetObject { Bucket := s.Bucket, Key := "/" ++ key, ResponseExpires := now }
                      st).1.1.LastModified,
                  Data :=
                    (svc.GetObject { Bucket := s.Bucket, Key := "/" ++ key, ResponseExpires := now }
                      st).1.1.Body.data }, none)) :=
  ⟨Get_calls s svc key now st, Get_result_of_success s svc key now st⟩

/-- C5, at a concrete input: the object stored under "/k" is fetched by `Get "k"`. -/
theorem Get_sends_one_request_witness :
    ((handle "b").Get memS3 "k" 9 [⟨"b", "/k", 4, [1, 2]⟩]).calls =
        [Call.getObject { Bucket := "b", Key := "/k", ResponseExpires := 9 }
          { Body := { data := [1, 2], err := none }, LastModified := 4 } none] ∧
      ((handle "b").Get memS3 "k" 9 [⟨"b", "/k", 4, [1, 2]⟩]).result =
        (some { Key := "k", LastModified := 4, Data := [1, 2] }, none) :=
  ⟨(Get_sends_one_request (handle "b") memS3 "k" 9 [⟨"b", "/k", 4, [1, 2]⟩]).1,
   (Get_sends_one_request (handle "b") memS3 "k" 9 [⟨"b", "/k", 4, [1, 2]⟩]).2 rfl rfl⟩

/-- C7, as stated, fails: when the remote error is a service error without
request-failure detail, the text `Get` and `Put` return is not the raw text of
the remote error. -/
theorem error_text_not_raw_for_service_error :
    ((handle "b").Get (failing noSuchKey) "k" 0 ()).result =
        (none, some (errorsNew "NoSuchKey The specified key does not exist. %!s(<nil>)")) ∧
      ((handle "b").Put (failing noSuchKey) ⟨"k", 0, []⟩ ()).result =
        some (errorsNew "NoSuchKey The specified key does not exist. %!s(<nil>)") ∧
      (errorsNew "NoSuchKey The specified key does not exist. %!s(<nil>)").Error ≠
        noSuchKey.Error := by
  refine ⟨rfl, rfl, ?_⟩
  decide

/-- C7, amended. When the remote call of `Get` or `Put` fails, no object is
returned and the error returned is a new plain error whose text is: for an
error with request-failure detail, the message, the status code and the
request identifier, separated by single spaces; for a service error without
that detail, the code, the message and the original error, separated by single
spaces; for any other error, its raw text unchanged. -/
theorem error_translation {σ : Type} (s : Bucket) (svc : Service σ) (key : String) (now : Time)
    (o : Object) (st : σ) (e : Error) :
    ((svc.GetObject { Bucket := s.Bucket, Key := "/" ++ key, ResponseExpires := now } st).1.2
        = some e →
      (s.Get svc key now st).result =
        (none, some (errorsNew
          (match e with
           | .requestFailure _ _ message _ statusCode requestID =>
               message ++ " " ++ fmtD statusCode ++ " " ++ requestID
           | .awsError _ code message origErr => code ++ " " ++ message ++ " " ++ fmtErrorS origErr
           | .errorString text => text)))) ∧
    ((svc.PutObject
        { Bucket := s.Bucket, Key := "/" ++ o.Key, ACL := s.ACL, Body := o.Data,
          ContentType := "application/json" } st).1 = some e →
      (s.Put svc o st).result =
        some (errorsNew
          (match e with
           | .requestFailure _ _ message _ statusCode requestID =>
               message ++ " " ++ fmtD statusCode ++ " " ++ requestID
           | .awsError _ code message origErr => code ++ " " ++ message ++ " " ++ fmtErrorS origErr
           | .errorString text => text))) := by
  constructor
  · intro h
    cases e <;> simp [Bucket.Get, h]
  · intro h
    cases e <;> simp [Bucket.Put, h]

/-- C7, amended, at a concrete input: a remote that answers every call with a
404 request failure. -/
theorem error_translation_witness :
    ((handle "b").Get (failing notFound) "k" 0 ()).result =
        (none, some (errorsNew "Not Found 404 R1")) ∧
      ((handle "b").Put (failing notFound) ⟨"k", 0, []⟩ ()).result =
        some (errorsNew "Not Found 404 R1") :=
  ⟨(error_translation (handle "b") (failing notFound) "k" 0 ⟨"k", 0, []⟩ () notFound).1 rfl,
   (error_translation (handle "b") (failing notFound) "k" 0 ⟨"k", 0, []⟩ () notFound).2 rfl⟩

/-- The in-memory store keeps the body sent by put-object under its bucket and key. -/
theorem memS3_keeps_body (p : PutObjectInput) (st : List Stored) :
    (memS3.PutObject p st).1 = none →
      memStored (memS3.PutObject p st).2 p.Bucket p.Key = some p.Body := by
  intro _
  simp [memS3, memStored]

/-- The in-memory store returns the body it holds under the bucket and key. -/
theorem memS3_returns_body (p : GetObjectInput) (st : List Stored) (d : Bytes) :
    memStored st p.Bucket p.Key = some d →
      (memS3.GetObject p st).1.2 = none ∧
        (memS3.GetObject p st).1.1.Body = { data := d, err := none } := by
  intro h
  unfold memStored at h
  cases hf : st.find? (fun o => o.Bucket == p.Bucket && o.Key == p.Key) with
  | none => simp [hf] at h
  | some o =>
    simp [hf] at h
    simp [memS3, hf, h]

/-- C4. Over any remote that keeps the body sent by put-object under the bucket
and key it was sent with, and returns the body it holds for a get-object on
that bucket and key: a successful `Put` of an object with key `k` and data `d`
followed by `Get k` on the same handle returns no error and an object whose
key is `k` and whose data is `d`. -/
theorem Put_then_Get_roundtrip {σ : Type} (svc : Service σ)
    (stored : σ → String → String → Option Bytes)
    (hput : ∀ p st, (svc.PutObject p st).1 = none →
      stored (svc.PutObject p st).2 p.Bucket p.Key = some p.Body)
    (hget : ∀ p st d, stored st p.Bucket p.Key = some d →
      (svc.GetObject p st).1.2 = none ∧ (svc.GetObject p st).1.1.Body = { data := d, err := none })
    (s : Bucket) (k : String) (d : Bytes) (lm now : Time) (st : σ)
    (hok : (s.Put svc { Key := k, LastModified := lm, Data := d } st).result = none) :
    ∃ t, (s.Get svc k now (s.Put svc { Key := k, LastModified := lm, Data := d } st).remote).result
      = (some { Key := k, LastModified := t, Data := d }, none) := by
  have hreq := (Put_result_none_iff s svc { Key := k, LastModified := lm, Data := d } st).1 hok
  have hs := hput _ _ hreq
  rw [Put_remote]
  have hg := hget { Bucket := s.Bucket, Key := "/" ++ k, ResponseExpires := now } _ d hs
  have h5 := Get_result_of_success s svc k now _ hg.1 (by rw [hg.2])
  rw [hg.2] at h5
  exact ⟨_, h5⟩

/-- C4, at a concrete input: three bytes put under "k" in an empty in-memory
store come back from `Get "k"`. -/
theorem Put_then_Get_roundtrip_witness :
    ((handle "b").Put memS3 { Key := "k", LastModified := 0, Data := [1, 2, 3] } []).result = none ∧
      ∃ t, ((handle "b").Get memS3 "k" 7
          ((handle "b").Put memS3 { Key := "k", LastModified := 0, Data := [1, 2, 3] } []).remote).result
        = (some { Key := "k", LastModified := t, Data := [1, 2, 3] }, none) :=
  ⟨rfl, Put_then_Get_roundtrip memS3 memStored memS3_keeps_body memS3_returns_body
    (handle "b") "k" [1, 2, 3] 0 7 [] rfl⟩

/-! ### The loop of `List` -/

theorem nextMarker_cons (marker : String) (c : S3Object) (rest : List S3Object) :
    nextMarker marker (c :: rest) = nextMarker c.Key rest := by
  cases rest with
  | nil => rfl
  | cons d r =>
    cases h : (d :: r).getLast? with
    | none => simp at h
    | some x => simp [nextMarker, List.getLast?_cons_cons, h]

theorem appendContents_eq (contents : List S3Object) (currentKey : String) (obj : List Object) :
    appendContents contents currentKey obj =
      (nextMarker currentKey contents, obj ++ contents.map S3Object.toObject) := by
  induction contents generalizing currentKey obj with
  | nil => simp [appendContents, nextMarker]
  | cons c rest ih =>
    simp [appendContents, ih, nextMarker_cons, S3Object.toObject]

/-- One turn of the loop, by what the page request gives back. -/
theorem ListLoop_succ {σ : Type} (s : Bucket) (svc : Service σ) (fuel : Nat) (currentKey : String)
    (obj : List Object) (st : σ) (calls : List Call) (out : List String) :
    ListLoop s svc (fuel + 1) currentKey obj st calls out =
      match (svc.ListObjects { Bucket := s.Bucket, MaxKeys := 1000, Marker := currentKey } st).1.2 with
      | some e =>
          { result := .returned [] (some e),
            remote := (svc.ListObjects { Bucket := s.Bucket, MaxKeys := 1000, Marker := currentKey } st).2,
            calls := calls ++ [.listObjects { Bucket := s.Bucket, MaxKeys := 1000, Marker := currentKey }
              (svc.ListObjects { Bucket := s.Bucket, MaxKeys := 1000, Marker := currentKey } st).1.1
              (some e)],
            stdout := out ++ [e.Error] }
      | none =>
          if (svc.ListObjects { Bucket := s.Bucket, MaxKeys := 1000, Marker := currentKey }
              st).1.1.IsTruncated = false then
            { result := .broke (obj ++
                (svc.ListObjects { Bucket := s.Bucket, MaxKeys := 1000, Marker := currentKey }
                  st).1.1.Contents.map S3Object.toObject),
              remote := (svc.ListObjects { Bucket := s.Bucket, MaxKeys := 1000, Marker := currentKey } st).2,
              calls := calls ++ [.listObjects { Bucket := s.Bucket, MaxKeys := 1000, Marker := currentKey }
                (svc.ListObjects { Bucket := s.Bucket, MaxKeys := 1000, Marker := currentKey } st).1.1
                none],
              stdout := out }
          else
            ListLoop s svc fuel
              (nextMarker currentKey
                (svc.ListObjects { Bucket := s.Bucket, MaxKeys := 1000, Marker := currentKey }
                  st).1.1.Contents)
              (obj ++ (svc.ListObjects { Bucket := s.Bucket, MaxKeys := 1000, Marker := currentKey }
                  st).1.1.Contents.map S3Object.toObject)
              (svc.ListObjects { Bucket := s.Bucket, MaxKeys := 1000, Marker := currentKey } st).2
              (calls ++ [.listObjects { Bucket := s.Bucket, MaxKeys := 1000, Marker := currentKey }
                (svc.ListObjects { Bucket := s.Bucket, MaxKeys := 1000, Marker := currentKey } st).1.1
                none])
              out := by
  cases h : (svc.ListObjects { Bucket := s.Bucket, MaxKeys := 1000, Marker := currentKey } st).1.2 with
  | some e => simp [ListLoop, h]
  | none =>
    cases ht : (svc.ListObjects { Bucket := s.Bucket, MaxKeys := 1000, Marker := currentKey }
        st).1.1.IsTruncated <;>
      simp [ListLoop, h, ht, appendContents_eq]

/-- The calls a run of the loop adds follow the pagination protocol, and the
way the loop is left shows in the last of them. -/
theorem ListLoop_trace {σ : Type} (s : Bucket) (svc : Service σ) (fuel : Nat) :
    ∀ (currentKey : String) (obj : List Object) (st : σ) (calls : List Call) (out : List String),
      ∃ new : List Call,
        (ListLoop s svc fuel currentKey obj st calls out).calls = calls ++ new ∧
        MarkerChain s.Bucket currentKey new ∧
        ((ListLoop s svc fuel currentKey obj st calls out).result = .outOfFuel →
          new.length = fuel ∧ ∀ c ∈ new, ¬ c.stops) ∧
        ((ListLoop s svc fuel currentKey obj st calls out).result ≠ .outOfFuel →
          ∃ c, new.getLast? = some c ∧ c.stops) := by
  induction fuel with
  | zero =>
    intro currentKey obj st calls out
    exact ⟨[], by simp [ListLoop], trivial, by simp, by simp [ListLoop]⟩
  | succ fuel ih =>
    intro currentKey obj st calls out
    rw [ListLoop_succ]
    generalize svc.ListObjects { Bucket := s.Bucket, MaxKeys := 1000, Marker := currentKey } st = R
    obtain ⟨⟨resp, err⟩, st1⟩ := R
    cases err with
    | some e =>
      exact ⟨[.listObjects { Bucket := s.Bucket, MaxKeys := 1000, Marker := currentKey } resp (some e)],
        rfl, by simp [MarkerChain], by simp, by simp [Call.stops]⟩
    | none =>
      cases ht : resp.IsTruncated with
      | false =>
        refine ⟨[.listObjects { Bucket := s.Bucket, MaxKeys := 1000, Marker := currentKey } resp none],
          ?_, ?_, ?_, ?_⟩
        · simp [ht]
        · simp [MarkerChain]
        · simp [ht]
        · simp [ht, Call.stops]
      | true =>
        obtain ⟨new, h1, h2, h3, h4⟩ := ih (nextMarker currentKey resp.Contents)
          (obj ++ resp.Contents.map S3Object.toObject) st1
          (calls ++ [.listObjects { Bucket := s.Bucket, MaxKeys := 1000, Marker := currentKey }
            resp none]) out
        simp only [ht]
        refine ⟨.listObjects { Bucket := s.Bucket, MaxKeys := 1000, Marker := currentKey }
          resp none :: new, ?_, ?_, ?_, ?_⟩
        · simpa using h1
        · simp [MarkerChain, ht, h2]
        · intro h
          obtain ⟨h5, h6⟩ := h3 (by simpa using h)
          refine ⟨by simp [h5], ?_⟩
          intro c hc
          rcases List.mem_cons.1 hc with rfl | hc
          · simp [Call.stops, ht]
          · exact h6 c hc
        · intro h
          obtain ⟨c, h5, h6⟩ := h4 (by simpa using h)
          refine ⟨c, ?_, h6⟩
          cases new with
          | nil => simp at h5
          | cons d r => simpa [List.getLast?_cons_cons] using h5

theorem List_calls {σ : Type} (s : Bucket) (svc : Service σ) (fuel : Nat) (st : σ) :
    (s.List svc fuel st).calls = (ListLoop s svc fuel "" [] st [] []).calls := by
  cases h : (ListLoop s svc fuel "" [] st [] []).result <;> simp [Bucket.List, h]

theorem List_remote {σ : Type} (s : Bucket) (svc : Service σ) (fuel : Nat) (st : σ) :
    (s.List svc fuel st).remote = (ListLoop s svc fuel "" [] st [] []).remote := by
  cases h : (ListLoop s svc fuel "" [] st [] []).result <;> simp [Bucket.List, h]

theorem List_result {σ : Type} (s : Bucket) (svc : Service σ) (fuel : Nat) (st : σ) :
    (s.List svc fuel st).result =
      match (ListLoop s svc fuel "" [] st [] []).result with
      | .outOfFuel => none
      | .returned obj err => some (obj, err)
      | .broke obj => some (sortSort ByLastModified.Less obj, none) := by
  cases h : (ListLoop s svc fuel "" [] st [] []).result <;> simp [Bucket.List, h]

/-- C10. In every run of `List`, over any remote and for any number of turns of
the loop: every call is a list-objects call that carries the bucket of the
handle and a page limit of 1000; the first carries the empty marker; each later
one carries the key of the last entry of the page before it (the marker
already sent when that page has no entries); a call is followed by another
only if it succeeded with a truncated page. While the loop is running no page
received has stopped it, and once `List` has returned the last page received
had failed or was not truncated. -/
theorem List_requests_follow_markers {σ : Type} (s : Bucket) (svc : Service σ) (fuel : Nat)
    (st : σ) :
    MarkerChain s.Bucket "" (s.List svc fuel st).calls ∧
      ((s.List svc fuel st).result = none →
        (s.List svc fuel st).calls.length = fuel ∧ ∀ c ∈ (s.List svc fuel st).calls, ¬ c.stops) ∧
      ((s.List svc fuel st).result ≠ none →
        ∃ c, (s.List svc fuel st).calls.getLast? = some c ∧ c.stops) := by
  obtain ⟨new, h1, h2, h3, h4⟩ := ListLoop_trace s svc fuel "" [] st [] []
  rw [List_calls, List_result, h1]
  simp only [List.nil_append]
  refine ⟨h2, ?_, ?_⟩
  · intro h
    apply h3
    cases hr : (ListLoop s svc fuel "" [] st [] []).result <;> simp [hr] at h ⊢
  · intro h
    apply h4
    cases hr : (ListLoop s svc fuel "" [] st [] []).result <;> simp [hr] at h ⊢

/-! ### Sorting -/

theorem orderedInsert_perm {α : Type} (less : α → α → Bool) (x : α) (l : List α) :
    (orderedInsert less x l).Perm (x :: l) := by
  induction l with
  | nil => exact List.Perm.refl _
  | cons y ys ih =>
    unfold orderedInsert
    split
    · exact List.Perm.refl _
    · exact (List.Perm.cons y ih).trans (List.Perm.swap x y ys)

theorem sortSort_perm {α : Type} (less : α → α → Bool) (l : List α) :
    (sortSort less l).Perm l := by
  induction l with
  | nil => exact List.Perm.refl _
  | cons x xs ih =>
    exact (orderedInsert_perm less x (sortSort less xs)).trans (List.Perm.cons x ih)

theorem orderedInsert_pairwise {α : Type} (less : α → α → Bool)
    (hasym : ∀ a b, less a b = true → less b a = false)
    (htrans : ∀ a b c, less a b = true → less b c = true → less a c = true)
    (x : α) (l : List α) (h : l.Pairwise (fun a b => less b a = false)) :
    (orderedInsert less x l).Pairwise (fun a b => less b a = false) := by
  induction l with
  | nil => simp [orderedInsert]
  | cons y ys ih =>
    obtain ⟨hy, hys⟩ := List.pairwise_cons.1 h
    unfold orderedInsert
    split
    · next hxy =>
      refine List.pairwise_cons.2 ⟨?_, h⟩
      intro z hz
      rcases List.mem_cons.1 hz with rfl | hz
      · exact hasym _ _ hxy
      · cases hzx : less z x with
        | false => rfl
        | true =>
          have := htrans z x y hzx hxy
          rw [hy z hz] at this
          exact absurd this (by simp)
    · next hxy =>
      refine List.pairwise_cons.2 ⟨?_, ih hys⟩
      intro z hz
      rcases List.mem_cons.1 ((orderedInsert_perm less x ys).mem_iff.1 hz) with rfl | hz
      · simpa using hxy
      · exact hy z hz

theorem sortSort_pairwise {α : Type} (less : α → α → Bool)
    (hasym : ∀ a b, less a b = true → less b a = false)
    (htrans : ∀ a b c, less a b = true → less b c = true → less a c = true) (l : List α) :
    (sortSort less l).Pairwise (fun a b => less b a = false) := by
  induction l with
  | nil => simp [sortSort]
  | cons x xs ih => exact orderedInsert_pairwise less hasym htrans x _ ih

theorem sortSort_descending (obj : List Object) :
    (sortSort ByLastModified.Less obj).Pairwise (fun a b => b.LastModified ≤ a.LastModified) := by
  have h := sortSort_pairwise ByLastModified.Less
    (by
      intro a b h1
      simp only [ByLastModified.Less, Time.After, decide_eq_true_eq,
        decide_eq_false_iff_not] at h1 ⊢
      exact lt_asymm h1)
    (by
      intro a b c h1 h2
      simp only [ByLastModified.Less, Time.After, decide_eq_true_eq] at h1 h2 ⊢
      exact lt_trans h2 h1) obj
  refine h.imp ?_
  intro a b h1
  simp only [ByLastModified.Less, Time.After, decide_eq_false_iff_not] at h1
  exact not_lt.1 h1

/-! ### `List` over a scripted remote -/

theorem ListLoop_scripted_pages (s : Bucket) (pages : List ListObjectsOutput)
    (htrunc : ∀ p ∈ pages, p.IsTruncated = true) :
    ∀ (fuel : Nat) (currentKey : String) (obj : List Object)
      (tail : List (ListObjectsOutput × Option Error)) (calls : List Call) (out : List String),
      ∃ (key : String) (calls1 : List Call),
        ListLoop s scripted (pages.length + fuel) currentKey obj
            (pages.map (fun p => (p, none)) ++ tail) calls out =
          ListLoop s scripted fuel key (obj ++ allEntries pages) tail calls1 out ∧
        calls1.length = calls.length + pages.length := by
  induction pages with
  | nil =>
    intro fuel currentKey obj tail calls out
    exact ⟨currentKey, calls, by simp [allEntries], rfl⟩
  | cons p ps ih =>
    intro fuel currentKey obj tail calls out
    have hp : p.IsTruncated = true := htrunc p (List.mem_cons_self _ _)
    obtain ⟨key, calls1, h1, h2⟩ := ih (fun q hq => htrunc q (List.mem_cons_of_mem _ hq)) fuel
      (nextMarker currentKey p.Contents) (obj ++ p.Contents.map S3Object.toObject) tail
      (calls ++ [.listObjects { Bucket := s.Bucket, MaxKeys := 1000, Marker := currentKey } p none])
      out
    refine ⟨key, calls1, ?_, ?_⟩
    · have hlen : (p :: ps).length + fuel = (ps.length + fuel) + 1 := by simp; omega
      rw [hlen, ListLoop_succ]
      simp only [List.map_cons, List.cons_append, scripted, hp]
      simpa [allEntries] using h1
    · simp at h2 ⊢
      omega

theorem allEntries_append (ps qs : List ListObjectsOutput) :
    allEntries (ps ++ qs) = allEntries ps ++ allEntries qs := by
  induction ps with
  | nil => rfl
  | cons p ps ih => simp [allEntries, ih]

/-- C1. When the page requests of `List` are answered by successful truncated
pages followed by a successful page that is not truncated, `List` returns no
error and a sequence ordered by `LastModified` descending: for positions
`i < j` of the result, entry `i` is not earlier than entry `j`. The sequence
holds exactly the entries of the pages received. -/
theorem List_sorted_by_LastModified_desc (s : Bucket) (pages : List ListObjectsOutput)
    (last : ListObjectsOutput) (rest : List (ListObjectsOutput × Option Error)) (fuel : Nat)
    (htrunc : ∀ p ∈ pages, p.IsTruncated = true) (hlast : last.IsTruncated = false)
    (hfuel : pages.length + 1 ≤ fuel) :
    ∃ obj : List Object,
      (s.List scripted fuel (pages.map (fun p => (p, none)) ++ (last, none) :: rest)).result =
        some (obj, none) ∧
      (∀ (i j : Nat) (hij : i < j) (hj : j < obj.length),
        (obj.get ⟨j, hj⟩).LastModified ≤ (obj.get ⟨i, Nat.lt_trans hij hj⟩).LastModified) ∧
      obj.Perm (allEntries (pages ++ [last])) := by
  obtain ⟨f, rfl⟩ : ∃ f, fuel = pages.length + (f + 1) := ⟨fuel - (pages.length + 1), by omega⟩
  obtain ⟨key, calls1, h1, _⟩ := ListLoop_scripted_pages s pages htrunc (f + 1) "" []
    ((last, none) :: rest) [] []
  refine ⟨sortSort ByLastModified.Less (allEntries (pages ++ [last])), ?_, ?_, sortSort_perm _ _⟩
  · rw [List_result, h1, ListLoop_succ]
    simp [scripted, hlast, allEntries_append, allEntries]
  · intro i j hij hj
    exact List.pairwise_iff_get.1 (sortSort_descending _) ⟨i, Nat.lt_trans hij hj⟩ ⟨j, hj⟩ hij

/-- C1, at a concrete input: a truncated page of two entries and a last page
of one. -/
theorem List_sorted_by_LastModified_desc_witness :
    ∃ obj : List Object,
      ((handle "b").List scripted 2
          ([(⟨[⟨"a", 1⟩, ⟨"b", 3⟩], true⟩ : ListObjectsOutput)].map (fun p => (p, none)) ++
            ((⟨[⟨"c", 2⟩], false⟩ : ListObjectsOutput), none) :: [])).result = some (obj, none) ∧
      (∀ (i j : Nat) (hij : i < j) (hj : j < obj.length),
        (obj.get ⟨j, hj⟩).LastModified ≤ (obj.get ⟨i, Nat.lt_trans hij hj⟩).LastModified) ∧
      obj.Perm (allEntries ([(⟨[⟨"a", 1⟩, ⟨"b", 3⟩], true⟩ : ListObjectsOutput)] ++
        [(⟨[⟨"c", 2⟩], false⟩ : ListObjectsOutput)])) :=
  List_sorted_by_LastModified_desc (handle "b") [⟨[⟨"a", 1⟩, ⟨"b", 3⟩], true⟩] ⟨[⟨"c", 2⟩], false⟩
    [] 2 (by simp) rfl (by decide)

/-- C3. When the first `k - 1` page requests of `List` are answered by
successful truncated pages and the `k`-th fails with error `e`, `List` returns
`e` and no entries, whatever the earlier pages and the failing response carry;
it has made exactly `k` calls and the responses the remote had left are
untouched. -/
theorem List_page_failure_returns_error_only (s : Bucket) (pages : List ListObjectsOutput)
    (failed : ListObjectsOutput) (e : Error) (rest : List (ListObjectsOutput × Option Error))
    (fuel : Nat) (htrunc : ∀ p ∈ pages, p.IsTruncated = true) (hfuel : pages.length + 1 ≤ fuel) :
    (s.List scripted fuel (pages.map (fun p => (p, none)) ++ (failed, some e) :: rest)).result =
        some ([], some e) ∧
      (s.List scripted fuel
        (pages.map (fun p => (p, none)) ++ (failed, some e) :: rest)).calls.length =
        pages.length + 1 ∧
      (s.List scripted fuel (pages.map (fun p => (p, none)) ++ (failed, some e) :: rest)).remote =
        rest := by
  obtain ⟨f, rfl⟩ : ∃ f, fuel = pages.length + (f + 1) := ⟨fuel - (pages.length + 1), by omega⟩
  obtain ⟨key, calls1, h1, h2⟩ := ListLoop_scripted_pages s pages htrunc (f + 1) "" []
    ((failed, some e) :: rest) [] []
  rw [List_result, List_calls, List_remote, h1, ListLoop_succ]
  simp [scripted, h2]

/-- C3, at a concrete input: the second page request of a listing fails, with
entries in the first page and in the failing response. -/
theorem List_page_failure_returns_error_only_witness :
    ((handle "b").List scripted 5
        ([(⟨[⟨"a", 1⟩, ⟨"b", 3⟩], true⟩ : ListObjectsOutput)].map (fun p => (p, none)) ++
          ((⟨[⟨"c", 2⟩], true⟩ : ListObjectsOutput), some notFound) ::
            [((⟨[⟨"d", 4⟩], false⟩ : ListObjectsOutput), none)])).result =
        some ([], some notFound) ∧
      ((handle "b").List scripted 5
        ([(⟨[⟨"a", 1⟩, ⟨"b", 3⟩], true⟩ : ListObjectsOutput)].map (fun p => (p, none)) ++
          ((⟨[⟨"c", 2⟩], true⟩ : ListObjectsOutput), some notFound) ::
            [((⟨[⟨"d", 4⟩], false⟩ : ListObjectsOutput), none)])).calls.length = 1 + 1 ∧
      ((handle "b").List scripted 5
        ([(⟨[⟨"a", 1⟩, ⟨"b", 3⟩], true⟩ : ListObjectsOutput)].map (fun p => (p, none)) ++
          ((⟨[⟨"c", 2⟩], true⟩ : ListObjectsOutput), some notFound) ::
            [((⟨[⟨"d", 4⟩], false⟩ : ListObjectsOutput), none)])).remote =
        [((⟨[⟨"d", 4⟩], false⟩ : ListObjectsOutput), none)] :=
  List_page_failure_returns_error_only (handle "b") [⟨[⟨"a", 1⟩, ⟨"b", 3⟩], true⟩]
    ⟨[⟨"c", 2⟩], true⟩ notFound [(⟨[⟨"d", 4⟩], false⟩, none)] 5 (by simp) (by decide)

/-! ### `List` over a marker-based remote -/

theorem keyLess_iff (a b : String) : keyLess a b = true ↔ a < b := by
  simp [keyLess, String.lt_iff_toList_lt]

theorem keyLess_empty (k : String) (h : k ≠ "") : keyLess "" k = true := by
  rw [keyLess_iff, String.lt_iff_toList_lt]
  cases k with
  | mk l =>
    cases l with
    | nil => exact absurd rfl h
    | cons c cs => exact List.Lex.nil

theorem sortSort_keyOrdered (objs : List S3Object) (hnodup : (objs.map S3Object.Key).Nodup) :
    KeyOrdered (sortSort (fun a b : S3Object => keyLess a.Key b.Key) objs) := by
  have hle := sortSort_pairwise (fun a b : S3Object => keyLess a.Key b.Key)
    (by
      intro a b h1
      rw [keyLess_iff] at h1
      cases h2 : keyLess b.Key a.Key with
      | false => exact h2
      | true => exact absurd ((keyLess_iff _ _).1 h2) (lt_asymm h1))
    (by
      intro a b c h1 h2
      rw [keyLess_iff] at h1 h2 ⊢
      exact lt_trans h1 h2) objs
  have hne : (sortSort (fun a b : S3Object => keyLess a.Key b.Key) objs).Pairwise
      (fun a b => a.Key ≠ b.Key) := by
    have h : ((sortSort (fun a b : S3Object => keyLess a.Key b.Key) objs).map
        S3Object.Key).Nodup :=
      ((sortSort_perm (fun a b : S3Object => keyLess a.Key b.Key) objs).map
        S3Object.Key).nodup_iff.2 hnodup
    exact List.pairwise_map.1 h
  refine (hle.and hne).imp ?_
  intro a b h
  obtain ⟨h1, h2⟩ := h
  have h3 : ¬ b.Key < a.Key := by
    intro h4
    rw [← keyLess_iff, h1] at h4
    exact absurd h4 (by simp)
  exact lt_of_le_of_ne (not_lt.1 h3) h2

/-- After an entry `x` of a key-ordered list, the entries greater than `x` are
exactly those that follow it. -/
theorem filter_after_entry (A B : List S3Object) (x : S3Object) (h : KeyOrdered (A ++ x :: B)) :
    (A ++ x :: B).filter (fun o => keyLess x.Key o.Key) = B := by
  obtain ⟨_, hxB, hAx⟩ := List.pairwise_append.1 h
  obtain ⟨hx, _⟩ := List.pairwise_cons.1 hxB
  have hA : A.filter (fun o => keyLess x.Key o.Key) = [] := by
    rw [List.filter_eq_nil_iff]
    intro a ha h1
    exact lt_asymm ((keyLess_iff _ _).1 h1) (hAx a ha x (List.mem_cons_self _ _))
  have hxx : keyLess x.Key x.Key = false := by
    cases h1 : keyLess x.Key x.Key with
    | false => rfl
    | true => exact absurd ((keyLess_iff _ _).1 h1) (lt_irrefl _)
  have hB : B.filter (fun o => keyLess x.Key o.Key) = B := by
    rw [List.filter_eq_self]
    intro b hb
    exact (keyLess_iff _ _).2 (hx b hb)
  rw [List.filter_append, hA, List.filter_cons, hxx, hB]
  simp

/-- The marker that follows the first `n` entries of the remainder selects the
entries after them. -/
theorem filter_after_page (S pre suf : List S3Object) (marker : String) (n : Nat)
    (hS : S = pre ++ suf) (hord : KeyOrdered S) (hn : 0 < n) (hlen : n < suf.length) :
    S.filter (fun o => keyLess (nextMarker marker (suf.take n)) o.Key) = suf.drop n := by
  have hne : suf.take n ≠ [] := by
    intro h
    have h2 := List.length_take n suf
    rw [h] at h2
    simp only [List.length_nil] at h2
    omega
  have hlast : (suf.take n).getLast? = some ((suf.take n).getLast hne) :=
    List.getLast?_eq_getLast _ hne
  have hm : nextMarker marker (suf.take n) = ((suf.take n).getLast hne).Key := by
    simp [nextMarker, hlast]
  have hsplit : S = (pre ++ (suf.take n).dropLast) ++ (suf.take n).getLast hne :: suf.drop n := by
    calc S = pre ++ (suf.take n ++ suf.drop n) := by rw [List.take_append_drop, hS]
      _ = pre ++ (((suf.take n).dropLast ++ [(suf.take n).getLast hne]) ++ suf.drop n) := by
          rw [List.dropLast_append_getLast hne]
      _ = _ := by simp
  rw [hm]
  have h := filter_after_entry (pre ++ (suf.take n).dropLast) (suf.drop n)
    ((suf.take n).getLast hne) (hsplit ▸ hord)
  rw [← hsplit] at h
  exact h

/-- The loop over a marker-based remote, from a point where `suf` is what
remains to be listed: it ends after the number of calls the length of `suf`
asks for, with every remaining entry appended. -/
theorem ListLoop_marker {σ : Type} (s : Bucket) (svc : Service σ) (st : σ) (objs : List S3Object)
    (hfaith : ∀ p : ListObjectsInput, p.Bucket = s.Bucket →
      svc.ListObjects p st = ((markerPage objs p, none), st))
    (hord : KeyOrdered (sortSort (fun a b : S3Object => keyLess a.Key b.Key) objs)) (fuel : Nat) :
    ∀ (currentKey : String) (obj : List Object) (calls : List Call) (out : List String)
      (pre suf : List S3Object),
      sortSort (fun a b : S3Object => keyLess a.Key b.Key) objs = pre ++ suf →
      (sortSort (fun a b : S3Object => keyLess a.Key b.Key) objs).filter
        (fun o => keyLess currentKey o.Key) = suf →
      max 1 ((suf.length + 999) / 1000) ≤ fuel →
      (ListLoop s svc fuel currentKey obj st calls out).result =
          .broke (obj ++ suf.map S3Object.toObject) ∧
        (ListLoop s svc fuel currentKey obj st calls out).calls.length =
          calls.length + max 1 ((suf.length + 999) / 1000) ∧
        (ListLoop s svc fuel currentKey obj st calls out).remote = st := by
  induction fuel with
  | zero =>
    intro currentKey obj calls out pre suf _ _ hfuel
    omega
  | succ fuel ih =>
    intro currentKey obj calls out pre suf hS hfilter hfuel
    have hresp := hfaith { Bucket := s.Bucket, MaxKeys := 1000, Marker := currentKey } rfl
    have hpage : markerPage objs { Bucket := s.Bucket, MaxKeys := 1000, Marker := currentKey } =
        { Contents := suf.take 1000, IsTruncated := decide (1000 < suf.length) } := by
      simp [markerPage, hfilter]
    rw [ListLoop_succ, hresp, hpage]
    by_cases hlen : 1000 < suf.length
    · have hnext := filter_after_page _ pre suf currentKey 1000 hS hord (by decide) hlen
      have hS1 : sortSort (fun a b : S3Object => keyLess a.Key b.Key) objs =
          (pre ++ suf.take 1000) ++ suf.drop 1000 := by
        rw [List.append_assoc, List.take_append_drop, hS]
      have hdrop : (suf.drop 1000).length = suf.length - 1000 := List.length_drop _ _
      have h := ih (nextMarker currentKey (suf.take 1000))
        (obj ++ (suf.take 1000).map S3Object.toObject)
        (calls ++ [.listObjects { Bucket := s.Bucket, MaxKeys := 1000, Marker := currentKey }
          { Contents := suf.take 1000, IsTruncated := decide (1000 < suf.length) } none])
        out (pre ++ suf.take 1000) (suf.drop 1000) hS1 hnext (by rw [hdrop]; omega)
      simp only [hlen, decide_True] at h
      simp only [hlen, decide_True, Bool.true_eq_false, if_false]
      obtain ⟨h1, h2, h3⟩ := h
      refine ⟨?_, ?_, h3⟩
      · rw [h1, List.append_assoc, ← List.map_append, List.take_append_drop]
      · rw [h2, hdrop]
        simp only [List.length_append, List.length_singleton]
        omega
    · have htake : suf.take 1000 = suf := List.take_of_length_le (by omega)
      simp only [hlen, decide_False, if_true, htake]
      refine ⟨trivial, ?_, trivial⟩
      simp only [List.length_append, List.length_singleton]
      omega

theorem toObject_key (l : List S3Object) :
    (l.map S3Object.toObject).map Object.Key = l.map S3Object.Key := by
  simp [S3Object.toObject]

/-- C2, as stated, fails: a marker-based remote holding one object whose key is
the empty string answers the first request (empty marker) with an empty page
that is not truncated, so `List` returns no entry. -/
theorem List_misses_empty_key :
    (∀ p : ListObjectsInput, p.Bucket = (handle "b").Bucket →
        memS3.ListObjects p [⟨"b", "", 5, []⟩] =
          ((markerPage [⟨"", 5⟩] p, none), [⟨"b", "", 5, []⟩])) ∧
      ([(⟨"", 5⟩ : S3Object)].map S3Object.Key).Nodup ∧
      ((handle "b").List memS3 1 [⟨"b", "", 5, []⟩]).result = some ([], none) ∧
      ¬ ∃ obj : List Object,
          ((handle "b").List memS3 1 [⟨"b", "", 5, []⟩]).result = some (obj, none) ∧
            obj.length = [(⟨"", 5⟩ : S3Object)].length := by
  have hres : ((handle "b").List memS3 1 [⟨"b", "", 5, []⟩]).result = some ([], none) := rfl
  refine ⟨?_, by simp, hres, ?_⟩
  · intro p hp
    have hb : p.Bucket = "b" := hp
    simp [memS3, hb, Stored.entry]
  · rintro ⟨obj, h1, h2⟩
    rw [hres] at h1
    simp only [Option.some.injEq, Prod.mk.injEq] at h1
    rw [← h1.1] at h2
    simp at h2

/-- C2, amended. Against a marker-based remote (a bucket of `n` objects with
pairwise distinct keys, none of them the empty string, that answers a request
`(marker, maxKeys)` with the first `maxKeys` objects in key order whose key is
greater than the marker, and sets the truncation flag exactly when more
objects remain), `List` returns with no error once the loop is allowed
`max 1 ⌈n / 1000⌉` turns, makes exactly that many calls, and returns exactly
`n` entries, those of the bucket, every stored key exactly once. -/
theorem List_over_marker_remote {σ : Type} (s : Bucket) (svc : Service σ) (st : σ)
    (objs : List S3Object)
    (hfaith : ∀ p : ListObjectsInput, p.Bucket = s.Bucket →
      svc.ListObjects p st = ((markerPage objs p, none), st))
    (hnodup : (objs.map S3Object.Key).Nodup) (hne : ∀ o ∈ objs, o.Key ≠ "") (fuel : Nat)
    (hfuel : max 1 ((objs.length + 999) / 1000) ≤ fuel) :
    ∃ obj : List Object,
      (s.List svc fuel st).result = some (obj, none) ∧
      (s.List svc fuel st).calls.length = max 1 ((objs.length + 999) / 1000) ∧
      obj.length = objs.length ∧
      obj.Perm (objs.map S3Object.toObject) ∧
      (∀ o ∈ objs, (obj.map Object.Key).count o.Key = 1) := by
  have hperm := sortSort_perm (fun a b : S3Object => keyLess a.Key b.Key) objs
  have hord := sortSort_keyOrdered objs hnodup
  have hfilter : (sortSort (fun a b : S3Object => keyLess a.Key b.Key) objs).filter
      (fun o => keyLess "" o.Key) = sortSort (fun a b : S3Object => keyLess a.Key b.Key) objs := by
    rw [List.filter_eq_self]
    intro o ho
    exact keyLess_empty _ (hne o (hperm.mem_iff.1 ho))
  have hlen : (sortSort (fun a b : S3Object => keyLess a.Key b.Key) objs).length = objs.length :=
    hperm.length_eq
  obtain ⟨h1, h2, _⟩ := ListLoop_marker s svc st objs hfaith hord fuel "" [] [] [] []
    (sortSort (fun a b : S3Object => keyLess a.Key b.Key) objs) (by simp) hfilter
    (by rw [hlen]; exact hfuel)
  have hobj : (sortSort ByLastModified.Less
      ((sortSort (fun a b : S3Object => keyLess a.Key b.Key) objs).map S3Object.toObject)).Perm
      (objs.map S3Object.toObject) :=
    (sortSort_perm _ _).trans (hperm.map _)
  refine ⟨_, ?_, ?_, ?_, hobj, ?_⟩
  · rw [List_result, h1]
    simp
  · rw [List_calls, h2, hlen]
    simp
  · rw [hobj.length_eq, List.length_map]
  · intro o ho
    have hk := hobj.map Object.Key
    rw [toObject_key] at hk
    rw [hk.count_eq]
    exact List.count_eq_one_of_mem hnodup (List.mem_map_of_mem _ ho)

/-- C2, amended, at a concrete input: a bucket of two objects in an in-memory
store that holds a second bucket as well. -/
theorem List_over_marker_remote_witness :
    ∃ obj : List Object,
      ((handle "b").List memS3 1
          [⟨"b", "k2", 5, []⟩, ⟨"b", "k1", 7, []⟩, ⟨"c", "k0", 9, []⟩]).result = some (obj, none) ∧
      ((handle "b").List memS3 1
          [⟨"b", "k2", 5, []⟩, ⟨"b", "k1", 7, []⟩, ⟨"c", "k0", 9, []⟩]).calls.length =
        max 1 (([(⟨"k2", 5⟩ : S3Object), ⟨"k1", 7⟩].length + 999) / 1000) ∧
      obj.length = [(⟨"k2", 5⟩ : S3Object), ⟨"k1", 7⟩].length ∧
      obj.Perm ([(⟨"k2", 5⟩ : S3Object), ⟨"k1", 7⟩].map S3Object.toObject) ∧
      (∀ o ∈ [(⟨"k2", 5⟩ : S3Object), ⟨"k1", 7⟩], (obj.map Object.Key).count o.Key = 1) :=
  List_over_marker_remote (handle "b") memS3
    [⟨"b", "k2", 5, []⟩, ⟨"b", "k1", 7, []⟩, ⟨"c", "k0", 9, []⟩] [⟨"k2", 5⟩, ⟨"k1", 7⟩]
    (by
      intro p hp
      have hb : p.Bucket = "b" := hp
      simp [memS3, hb, Stored.entry])
    (by decide) (by decide) 1 (by decide)

end S3Gopher
